import Mathlib

/-!
Shallow embedding of the selfAgent Flow Definition & Execution Engine
(`components/flow_manager.py`, `components/executor.py`,
`components/connector_manager.py`), together with theorems settling the
specification claims about it.

Python dict values that flow through connector results are modelled by
`PyVal` (strings, integers, lists of strings are the only value shapes the
embedded code produces).  A connector result (and a persisted
`result_json`) is an association list `CResult`.  A flow step is a Python
dict read only through `.get(...)` on a fixed set of keys; it is modelled
by the structure `Step` whose `Option` fields encode key absence, plus an
`extra` field standing for any further keys a step dict may carry.
-/

namespace SelfAgent

/-- Value shapes occurring in connector result dicts. -/
inductive PyVal where
  | str (s : String)
  | int (n : Int)
  | listStr (l : List String)
deriving DecidableEq, Repr

/-- A connector result / persisted step result: a Python dict. -/
abbrev CResult := List (String × PyVal)

/-- `d.get(k)` on a result dict: first binding of the key, if any. -/
def rget (r : CResult) (k : String) : Option PyVal :=
  (r.find? (fun p => p.1 == k)).map (·.2)

/-- `params.get(k, '')` on a step's `params` dict. -/
def pget (params : List (String × String)) (k : String) : String :=
  ((params.find? (fun p => p.1 == k)).map (·.2)).getD ""

/-- A flow step: a Python dict read via `.get` on these keys.  `none`
models key absence; `extra` models any additional keys. -/
structure Step where
  id : Option String := none
  name : Option String := none
  type : Option String := none
  connector : Option String := none
  action : Option String := none
  params : List (String × String) := []
  retryEnabled : Option Bool := none
  retryMaxAttempts : Option Nat := none
  onError : Option String := none
  extra : List (String × String) := []
deriving DecidableEq, Repr

/-- The empty step dict `{}` (every key absent): Python-falsy. -/
def emptyStep : Step := {}

/-- Python truthiness of an `Optional[str]` argument: `None` and `''` are
falsy. -/
def truthyStr : Option String → Bool
  | none => false
  | some s => s != ""

/-- Python truthiness of an `Optional[dict]` step argument: `None` and the
empty dict are falsy. -/
def truthyStep : Option Step → Bool
  | none => false
  | some s => decide (s ≠ emptyStep)

/-! ## Connector registry (`connector_manager.py`) -/

/-- A connector adapter: `capabilities()` and `run(action, params)`
(`BaseConnector` in the source). -/
structure BaseConnector where
  capabilities : List String
  run : String → List (String × String) → CResult

/-- `SQLConnector.run` (the `try` body is total, the `except` arm is dead
code). -/
def sqlRun (action : String) (params : List (String × String)) : CResult :=
  if action == "query" then
    [("status", .str "success"), ("action", .str action),
     ("result", .str ("Executed query: " ++ pget params "query")),
     ("rows_affected", .int 0)]
  else if action == "insert" then
    [("status", .str "success"), ("action", .str action),
     ("result", .str ("Inserted into " ++ pget params "table")),
     ("rows_affected", .int 1)]
  else if action == "update" then
    [("status", .str "success"), ("action", .str action),
     ("result", .str ("Updated " ++ pget params "table")),
     ("rows_affected", .int 1)]
  else if action == "delete" then
    [("status", .str "success"), ("action", .str action),
     ("result", .str ("Deleted from " ++ pget params "table")),
     ("rows_affected", .int 1)]
  else
    [("status", .str "error"), ("message", .str ("Unknown action: " ++ action))]

def sqlConnector : BaseConnector :=
  { capabilities := ["query", "insert", "update", "delete", "execute"]
    run := sqlRun }

/-- `SharePointConnector.run`. -/
def sharepointRun (action : String) (params : List (String × String)) : CResult :=
  if action == "read_file" then
    [("status", .str "success"), ("action", .str action),
     ("result", .str ("Read file: " ++ pget params "filename")),
     ("content", .str "Sample file content")]
  else if action == "write_file" then
    [("status", .str "success"), ("action", .str action),
     ("result", .str ("Wrote file: " ++ pget params "filename"))]
  else if action == "list_files" then
    [("status", .str "success"), ("action", .str action),
     ("files", .listStr ["file1.txt", "file2.pdf", "file3.xlsx"])]
  else
    [("status", .str "error"), ("message", .str ("Unknown action: " ++ action))]

def sharepointConnector : BaseConnector :=
  { capabilities := ["read_file", "write_file", "list_files", "upload", "download"]
    run := sharepointRun }

/-- `EmailConnector.run`. -/
def emailRun (action : String) (params : List (String × String)) : CResult :=
  if action == "send" then
    [("status", .str "success"), ("action", .str action),
     ("result", .str ("Sent email to " ++ pget params "to")),
     ("message_id", .str "msg_12345")]
  else if action == "read" then
    [("status", .str "success"), ("action", .str action),
     ("result", .str "Read email"),
     ("subject", .str (pget params "subject")),
     ("body", .str "Email body content")]
  else
    [("status", .str "error"), ("message", .str ("Unknown action: " ++ action))]

def emailConnector : BaseConnector :=
  { capabilities := ["send", "read", "list"]
    run := emailRun }

/-- `NotificationConnector.run` (always succeeds). -/
def notificationRun (action : String) (params : List (String × String)) : CResult :=
  [("status", .str "success"), ("action", .str action),
   ("result", .str ("Sent notification: " ++ pget params "message")),
   ("notification_id", .str "notif_12345")]

def notificationConnector : BaseConnector :=
  { capabilities := ["send_notification", "send_alert"]
    run := notificationRun }

/-- `ConnectorManager.connectors`: the fixed registry built in
`__init__`. -/
def connectors : List (String × BaseConnector) :=
  [("sql", sqlConnector), ("sharepoint", sharepointConnector),
   ("email", emailConnector), ("notification", notificationConnector)]

/-- `ConnectorManager.get_connector`. -/
def get_connector (name : String) : Option BaseConnector :=
  (connectors.find? (fun p => p.1 == name)).map (·.2)

/-- `", ".join(self.connectors.keys())`. -/
def connectorNames : String :=
  String.intercalate ", " (connectors.map (·.1))

/-- `ConnectorManager.run_connector`. -/
def run_connector (connector_name action : String)
    (params : List (String × String)) : CResult :=
  match get_connector connector_name with
  | none =>
      [("status", .str "error"),
       ("message", .str ("Connector not found: " ++ connector_name)),
       ("suggestion", .str ("Available connectors: " ++ connectorNames))]
  | some c =>
      if action ∈ c.capabilities then
        c.run action params
      else
        [("status", .str "error"),
         ("message", .str ("Action " ++ action ++ " not supported by " ++ connector_name)),
         ("supported_actions", .listStr c.capabilities)]

/-! ## Flow store (`flow_manager.py`)

The persisted state of one flow: its `Flow` row and its `FlowVersion`
rows.  A `FlowVersion` row carries the version number, the author and the
step list serialized into the version file `v<n>.yaml`. -/

structure FlowRow where
  id : Nat
  name : String
  description : String
  current_version : Nat
  updatedTouched : Bool := false
deriving DecidableEq, Repr

structure VersionRow where
  version_no : Nat
  author : String
  content_steps : List Step
deriving DecidableEq, Repr

structure FState where
  flow : FlowRow
  versions : List VersionRow
deriving DecidableEq, Repr

/-- `FlowManager.create_flow`: persists the Flow row with
`current_version = 1`, writes the `v1.yaml` content and persists
`FlowVersion(1)`.  `fid` stands for the database-assigned flow id. -/
def create_flow (fid : Nat) (name description : String) (steps : List Step)
    (author : String) : FState :=
  { flow := { id := fid, name := name, description := description,
              current_version := 1 }
    versions := [{ version_no := 1, author := author, content_steps := steps }] }

/-- `FlowManager.load_flow_content(...)['steps']`: the step list of the
version whose `version_no` equals the flow's `current_version`. -/
def currentSteps (st : FState) : Option (List Step) :=
  (st.versions.find? (fun v => v.version_no == st.flow.current_version)).map
    (·.content_steps)

/-- `FlowManager.update_flow`: computes `new_version_no =
current_version + 1`, updates the description only when the argument is
truthy, appends `FlowVersion(new_version_no)`, advances
`current_version` and touches `updated_at`. -/
def update_flow (st : FState) (steps : List Step) (description : Option String)
    (author : String) : FState :=
  let new_version_no := st.flow.current_version + 1
  let desc := if truthyStr description then description.getD "" else st.flow.description
  { flow := { st.flow with
                description := desc
                current_version := new_version_no
                updatedTouched := true }
    versions := st.versions ++
      [{ version_no := new_version_no, author := author, content_steps := steps }] }

/-- `list.insert(i, x)` in Python: inserts at index `i`, appending when
`i` is beyond the end. -/
def pyInsert (i : Nat) (x : α) : List α → List α
  | [] => [x]
  | a :: l =>
    match i with
    | 0 => x :: a :: l
    | n + 1 => a :: pyInsert n x l

/-- First index satisfying `p` (the `for i, step in enumerate(steps)`
search loops with `break`). -/
def findIdxP (p : α → Bool) : List α → Option Nat
  | [] => none
  | a :: l => if p a then some 0 else (findIdxP p l).map (· + 1)

/-- `FlowManager.modify_flow_steps`: loads the current step list, applies
one of the three operations, and on success creates the next version via
`update_flow` (with the default `description=None`).  `.error m` models a
raised `ValueError(m)`, which leaves the state untouched. -/
def modify_flow_steps (st : FState) (action : String)
    (anchor_step_id : Option String) (position : Option String)
    (new_step : Option Step) (step_id : Option String)
    (author : String) : Except String FState :=
  match currentSteps st with
  | none => .error ("Flow " ++ toString st.flow.id ++ " not found")
  | some steps =>
    if action == "insert_step" then
      if !truthyStr anchor_step_id || !truthyStr position || !truthyStep new_step then
        .error "Insert requires anchor_step_id, position, and new_step"
      else
        match findIdxP (fun s => s.id == anchor_step_id) steps with
        | none => .error ("Anchor step " ++ anchor_step_id.getD "" ++ " not found")
        | some anchor_idx =>
          .ok (update_flow st
            (pyInsert (if position == some "after" then anchor_idx + 1 else anchor_idx)
              (new_step.getD emptyStep) steps) none author)
    else if action == "update_step" then
      if !truthyStr step_id || !truthyStep new_step then
        .error "Update requires step_id and new_step"
      else
        match findIdxP (fun s => s.id == step_id) steps with
        | none => .error ("Step " ++ step_id.getD "" ++ " not found")
        | some i => .ok (update_flow st (steps.set i (new_step.getD emptyStep)) none author)
    else if action == "delete_step" then
      if !truthyStr step_id then
        .error "Delete requires step_id"
      else
        .ok (update_flow st (steps.filter (fun s => !(s.id == step_id))) none author)
    else
      .error ("Unknown action: " ++ action)

/-- The flow state after a `modify_flow_steps` call: unchanged when the
call raised. -/
def modifyRun (st : FState) (action : String) (anchor_step_id : Option String)
    (position : Option String) (new_step : Option Step)
    (step_id : Option String) (author : String) : FState :=
  match modify_flow_steps st action anchor_step_id position new_step step_id author with
  | .ok st' => st'
  | .error _ => st

/-! ## Validator (`FlowManager.validate_flow`) -/

/-- The flow-content dict handed to `validate_flow`; `none` models key
absence. -/
structure FlowContent where
  id : Option Nat := none
  name : Option String := none
  description : Option String := none
  version : Option Nat := none
  steps : Option (List Step) := none

/-- The per-step loop of `validate_flow`, accumulating errors and the set
of step ids seen so far. -/
def validateStepsLoop : List Step → Nat → List String → List String →
    List String × List String
  | [], _, errors, seen => (errors, seen)
  | s :: rest, i, errors, seen =>
    let (errors, seen) :=
      match s.id with
      | none => (errors ++ ["Step " ++ toString i ++ " missing ID"], seen)
      | some sid =>
        if sid ∈ seen then (errors ++ ["Duplicate step ID: " ++ sid], seen)
        else (errors, seen ++ [sid])
    let errors :=
      if s.name.isNone then errors ++ ["Step " ++ toString i ++ " missing name"] else errors
    let errors :=
      if s.type.isNone then errors ++ ["Step " ++ toString i ++ " missing type"] else errors
    validateStepsLoop rest (i + 1) errors seen

/-- `FlowManager.validate_flow`: accumulates all structural violations;
`(ok, errors)`. -/
def validate_flow (fc : FlowContent) : Bool × List String :=
  let errors :=
    (if fc.id.isNone then ["Missing flow ID"] else []) ++
    (if fc.name.isNone then ["Missing flow name"] else []) ++
    (if fc.steps.isNone then ["Missing steps"] else [])
  let (errors, _) := validateStepsLoop (fc.steps.getD []) 0 errors []
  (errors.isEmpty, errors)

/-! ## Executor (`executor.py`) -/

/-- A persisted `RunStep` row.  `started`/`finished` record whether the
respective timestamp column has been set (is non-null). -/
structure RunStepRec where
  step_id : String
  name : String
  status : String
  result : Option CResult := none
  started : Bool := false
  finished : Bool := false
deriving DecidableEq, Repr

/-- A persisted `Run` row. -/
structure RunRec where
  status : String
  started : Bool := false
  finished : Bool := false
deriving DecidableEq, Repr

/-- In-place update of the `i`-th list element (a committed row update). -/
def modifyAt (f : α → α) : Nat → List α → List α
  | _, [] => []
  | 0, a :: l => f a :: l
  | n + 1, a :: l => a :: modifyAt f n l

/-- The dispatch of `_execute_step`: `run_connector` when the step's
`connector` and `action` are both truthy, otherwise the synthesized
success result. -/
def dispatchResult (s : Step) : CResult :=
  if truthyStr s.connector && truthyStr s.action then
    run_connector (s.connector.getD "") (s.action.getD "") s.params
  else
    [("status", .str "success"), ("message", .str "No action specified")]

/-- `result.get('message')` rendered into the f-string of the raised
exception (`None` when the key is absent). -/
def getMessageStr (r : CResult) : String :=
  match rget r "message" with
  | some (.str m) => m
  | some (.int n) => toString n
  | some (.listStr l) => String.intercalate ", " l
  | none => "None"

/-- The `{'status': 'error', 'message': str(e)}` dict written by the
`except` arm of `_execute_step`. -/
def exceptionDict (msg : String) : CResult :=
  [("status", .str "error"), ("message", .str msg)]

/-- Whether executing this step raises: its dispatch result has
`status == 'error'` and its `onError` policy (default `stop`) is `stop`.
A step whose `id` key is absent is skipped before dispatch (its RunStep
lookup compares against SQL NULL), so it never raises. -/
def raisesP (s : Step) : Bool :=
  s.id.isSome && rget (dispatchResult s) "status" == some (.str "error")
    && s.onError.getD "stop" == "stop"

/-- `run_step.status = 'running'; run_step.started_at = now; commit`. -/
def setRunning (r : RunStepRec) : RunStepRec :=
  { r with status := "running", started := true }

/-- `run_step.status = st; run_step.result_json = dumps(res);
run_step.finished_at = now; commit`. -/
def setDone (st : String) (res : CResult) (r : RunStepRec) : RunStepRec :=
  { r with status := st, result := some res, finished := true }

/-- `Executor._execute_step` on the current RunStep rows: returns the
updated rows and the message of the exception propagated out of the call,
if any.  Mirrors the source exactly: the row is set `running`; on an
error-status dispatch the row is committed as `failed` with the result
payload; under `stop` policy the raise is caught by the function's own
`except` arm, which re-commits the row as `failed` with the generic
exception dict and re-raises. -/
def execStep (recs : List RunStepRec) (s : Step) : List RunStepRec × Option String :=
  match s.id with
  | none => (recs, none)
  | some sid =>
    match findIdxP (fun r => r.step_id == sid) recs with
    | none => (recs, none)
    | some i =>
      let recs := modifyAt setRunning i recs
      let result := dispatchResult s
      if rget result "status" == some (.str "error") then
        let recs := modifyAt (setDone "failed" result) i recs
        if s.onError.getD "stop" == "stop" then
          let msg := "Step " ++ sid ++ " failed: " ++ getMessageStr result
          let recs := modifyAt (setDone "failed" (exceptionDict msg)) i recs
          (recs, some msg)
        else
          (recs, none)
      else
        let recs := modifyAt (setDone "completed" result) i recs
        (recs, none)

/-- The step loop of `execute_flow`: aborts at the first step whose
execution raises. -/
def runLoop (recs : List RunStepRec) : List Step → List RunStepRec × Option String
  | [] => (recs, none)
  | s :: rest =>
    match execStep recs s with
    | (recs', some m) => (recs', some m)
    | (recs', none) => runLoop recs' rest

/-- The RunStep rows created before execution: one `pending` row per
step, with `step_id = step.get('id', '')`. -/
def initRecs (steps : List Step) : List RunStepRec :=
  steps.map (fun s =>
    { step_id := s.id.getD "", name := s.name.getD "", status := "pending" })

/-- The observable outcome of `Executor.execute_flow`: the final Run row,
the final RunStep rows, and the exception re-raised out of the call, if
any. -/
structure ExecOutcome where
  run : RunRec
  recs : List RunStepRec
  exc : Option String
deriving Repr

/-- `Executor.execute_flow` on a loaded step list: creates the Run
(`running`, `started_at` set) and the pending RunStep rows, executes the
steps in order, and finalizes the Run as `completed` — or as `failed`
with `finished_at` set when a step's exception propagates (which is then
re-raised). -/
def execute_flow (steps : List Step) : ExecOutcome :=
  let r := runLoop (initRecs steps) steps
  { run := { status := if r.2.isSome then "failed" else "completed",
             started := true, finished := true }
    recs := r.1
    exc := r.2 }

/-- Whether `_execute_step` finds the RunStep row for this step (the
query compares `step_id` with `step.get('id')`, which is SQL NULL when
the key is absent and therefore matches no row). -/
def foundIn (recs : List RunStepRec) (s : Step) : Bool :=
  match s.id with
  | none => false
  | some sid => recs.any (fun r => r.step_id == sid)

/-! ## Version-creating modification sequences (for the contiguity
invariant) -/

/-- One version-creating operation against a flow: a direct
`update_flow`, or a `modify_flow_steps` request (which may fail and then
creates nothing). -/
inductive ModOp where
  | upd (steps : List Step) (description : Option String) (author : String)
  | modSteps (action : String) (anchor_step_id : Option String)
      (position : Option String) (new_step : Option Step)
      (step_id : Option String) (author : String)

/-- Apply one operation; the Bool reports whether it succeeded (created a
version). -/
def applyOp (st : FState) : ModOp → FState × Bool
  | .upd steps d a => (update_flow st steps d a, true)
  | .modSteps act an pos ns sid a =>
    match modify_flow_steps st act an pos ns sid a with
    | .ok st' => (st', true)
    | .error _ => (st, false)

/-- Apply a sequence of operations, counting the successful ones. -/
def applyOps (st : FState) : List ModOp → FState × Nat
  | [] => (st, 0)
  | op :: ops =>
    let r := applyOp st op
    let r2 := applyOps r.1 ops
    (r2.1, (if r.2 then 1 else 0) + r2.2)

/-- `[1, 2, ..., n]`: the gap-free version-number sequence. -/
def natsUpTo : Nat → List Nat
  | 0 => []
  | n + 1 => natsUpTo n ++ [n + 1]

/-! ## Concrete flows used in examples and counterexamples -/

/-- Step A of the spec's two-step scenario: a valid `sql.query` call that
succeeds. -/
def cstepA : Step :=
  { id := some "a", name := some "A", type := some "action",
    connector := some "sql", action := some "query",
    params := [("query", "select 1")] }

/-- Step B: `email` connector with an action outside its capability list,
default `onError` (= `stop`). -/
def cstepB : Step :=
  { id := some "b", name := some "B", type := some "action",
    connector := some "email", action := some "upload" }

/-- Step B with `onError: continue`. -/
def cstepBc : Step :=
  { id := some "b", name := some "B", type := some "action",
    connector := some "email", action := some "upload",
    onError := some "continue" }

/-- Step C: a valid `notification.send_notification` call that
succeeds. -/
def cstepC : Step :=
  { id := some "c", name := some "C", type := some "action",
    connector := some "notification", action := some "send_notification",
    params := [("message", "hi")] }

/-- A step list with two steps sharing the id `s1`. -/
def dupSteps : List Step :=
  [{ id := some "s1", name := some "a", type := some "t" },
   { id := some "s1", name := some "b", type := some "t" }]

/-- A step whose `id` is the empty string. -/
def stepEmptyId : Step :=
  { id := some "", name := some "n", type := some "t" }

/-- A well-formed new step used in modification examples. -/
def cstepNew : Step :=
  { id := some "y", name := some "Y", type := some "action" }

/-! ## Lemmas about the embedded primitives -/

theorem findIdxP_mem {p : α → Bool} :
    ∀ {l : List α} {i : Nat}, findIdxP p l = some i → ∃ a ∈ l, p a = true := by
  intro l
  induction l with
  | nil => intro i h; simp [findIdxP] at h
  | cons a l ih =>
    intro i h
    by_cases hp : p a
    · exact ⟨a, List.mem_cons_self a l, hp⟩
    · simp only [findIdxP, hp, if_neg, Bool.false_eq_true, ite_false,
        Option.map_eq_some'] at h
      obtain ⟨j, hj, -⟩ := h
      obtain ⟨b, hb, hpb⟩ := ih hj
      exact ⟨b, List.mem_cons_of_mem _ hb, hpb⟩

theorem findIdxP_spec {p : α → Bool} :
    ∀ {l : List α} {i : Nat}, findIdxP p l = some i →
      ∃ a, l[i]? = some a ∧ p a = true ∧
        ∀ j, j < i → ∀ b, l[j]? = some b → p b = false := by
  intro l
  induction l with
  | nil => intro i h; simp [findIdxP] at h
  | cons a l ih =>
    intro i h
    by_cases hp : p a
    · simp only [findIdxP, hp, ite_true, Option.some.injEq] at h
      subst h
      exact ⟨a, by simp, hp, fun j hj b _ => absurd hj (by omega)⟩
    · simp only [findIdxP, hp, Bool.false_eq_true, ite_false,
        Option.map_eq_some'] at h
      obtain ⟨j, hj, rfl⟩ := h
      obtain ⟨b, hb, hpb, hfirst⟩ := ih hj
      refine ⟨b, by simpa using hb, hpb, ?_⟩
      intro k hk c hc
      match k with
      | 0 =>
        simp only [List.getElem?_cons_zero, Option.some.injEq] at hc
        subst hc
        exact eq_false_of_ne_true hp
      | k + 1 =>
        simp only [List.getElem?_cons_succ] at hc
        exact hfirst k (by omega) c hc

theorem findIdxP_isSome_of_any {p : α → Bool} :
    ∀ {l : List α}, l.any p = true → (findIdxP p l).isSome := by
  intro l
  induction l with
  | nil => intro h; simp at h
  | cons a l ih =>
    intro h
    by_cases hp : p a
    · simp [findIdxP, hp]
    · simp only [List.any_cons, hp, Bool.false_or] at h
      simp only [findIdxP, hp, Bool.false_eq_true, ite_false, Option.isSome_map']
      exact ih h

theorem modifyAt_getElem_self (f : α → α) :
    ∀ (i : Nat) (l : List α), (modifyAt f i l)[i]? = (l[i]?).map f := by
  intro i
  induction i with
  | zero => intro l; cases l <;> simp [modifyAt]
  | succ n ih => intro l; cases l <;> simp [modifyAt, ih]

theorem modifyAt_map (g : α → β) (f : α → α) (hf : ∀ a, g (f a) = g a) :
    ∀ (i : Nat) (l : List α), (modifyAt f i l).map g = l.map g := by
  intro i
  induction i with
  | zero => intro l; cases l <;> simp [modifyAt, hf]
  | succ n ih => intro l; cases l <;> simp [modifyAt, hf, ih]

theorem pyInsert_getElem_self :
    ∀ (i : Nat) (x : α) (l : List α), i ≤ l.length → (pyInsert i x l)[i]? = some x := by
  intro i
  induction i with
  | zero => intro x l _; cases l <;> simp [pyInsert]
  | succ n ih =>
    intro x l h
    cases l with
    | nil => simp at h
    | cons a l => simpa [pyInsert] using ih x l (by simpa using h)

theorem pyInsert_getElem_lt :
    ∀ (i j : Nat) (x : α) (l : List α), j < i → j < l.length →
      (pyInsert i x l)[j]? = l[j]? := by
  intro i
  induction i with
  | zero => intro j x l hj _; omega
  | succ n ih =>
    intro j x l hj hl
    cases l with
    | nil => simp at hl
    | cons a l =>
      cases j with
      | zero => simp [pyInsert]
      | succ m => simpa [pyInsert] using ih m x l (by omega) (by simpa using hl)

theorem mem_natsUpTo : ∀ (c m : Nat), m ∈ natsUpTo c ↔ 1 ≤ m ∧ m ≤ c := by
  intro c
  induction c with
  | zero => intro m; simp [natsUpTo]; omega
  | succ n ih => intro m; simp [natsUpTo, ih]; omega

theorem modifyAt_stepIds (f : RunStepRec → RunStepRec)
    (hf : ∀ r, (f r).step_id = r.step_id) (i : Nat) (l : List RunStepRec) :
    List.map (fun r => r.step_id) (modifyAt f i l) = List.map (fun r => r.step_id) l :=
  modifyAt_map _ f hf i l

theorem execStep_stepIds (recs : List RunStepRec) (s : Step) :
    ((execStep recs s).1).map (·.step_id) = recs.map (·.step_id) := by
  unfold execStep
  split
  · rfl
  · split
    · rfl
    · dsimp only
      split
      · split
        · dsimp only
          rw [modifyAt_stepIds (setDone _ _) (fun r => rfl),
              modifyAt_stepIds (setDone _ _) (fun r => rfl),
              modifyAt_stepIds setRunning (fun r => rfl)]
        · dsimp only
          rw [modifyAt_stepIds (setDone _ _) (fun r => rfl),
              modifyAt_stepIds setRunning (fun r => rfl)]
      · dsimp only
        rw [modifyAt_stepIds (setDone _ _) (fun r => rfl),
            modifyAt_stepIds setRunning (fun r => rfl)]

theorem any_stepId_eq_map (sid : String) :
    ∀ (l : List RunStepRec),
      l.any (fun r => r.step_id == sid) = (l.map (·.step_id)).any (· == sid) := by
  intro l
  induction l with
  | nil => rfl
  | cons r t ih => simp only [List.any_cons, List.map_cons, ih]

theorem foundIn_execStep (recs : List RunStepRec) (s' s : Step) :
    foundIn ((execStep recs s').1) s = foundIn recs s := by
  unfold foundIn
  cases s.id with
  | none => rfl
  | some sid =>
    dsimp only
    rw [any_stepId_eq_map, any_stepId_eq_map, execStep_stepIds]

theorem execStep_exc_none {s : Step} (recs : List RunStepRec)
    (h : raisesP s = false) : (execStep recs s).2 = none := by
  unfold raisesP at h
  unfold execStep
  split
  · rfl
  · next sid hsid =>
    split
    · rfl
    · dsimp only
      split
      · next herr =>
        split
        · next hstop => rw [hsid] at h; simp [herr, hstop] at h
        · rfl
      · rfl

theorem execStep_exc_some {s : Step} (recs : List RunStepRec)
    (h1 : raisesP s = true) (h2 : foundIn recs s = true) :
    ((execStep recs s).2).isSome = true := by
  unfold raisesP at h1
  unfold foundIn at h2
  unfold execStep
  split
  · next hsid => rw [hsid] at h2; exact absurd h2 (by simp)
  · next sid hsid =>
    rw [hsid] at h1 h2
    simp only [Option.isSome_some, Bool.true_and, Bool.and_eq_true] at h1
    split
    · next hfi =>
      have hf := findIdxP_isSome_of_any h2
      rw [hfi] at hf
      exact absurd hf (by simp)
    · dsimp only
      rw [if_pos h1.1, if_pos h1.2]
      rfl

theorem runLoop_no_raise :
    ∀ (l : List Step) (recs : List RunStepRec),
      (∀ s ∈ l, raisesP s = false) → (runLoop recs l).2 = none := by
  intro l
  induction l with
  | nil => intro recs _; rfl
  | cons s rest ih =>
    intro recs h
    have h0 := execStep_exc_none recs (h s (List.mem_cons_self s rest))
    unfold runLoop
    cases hes : execStep recs s with
    | mk recs' exc =>
      cases exc with
      | some m => rw [hes] at h0; exact absurd h0 (by simp)
      | none => exact ih recs' (fun s' hs' => h s' (List.mem_cons_of_mem _ hs'))

theorem runLoop_raises :
    ∀ (l : List Step) (recs : List RunStepRec) (s : Step),
      s ∈ l → raisesP s = true → foundIn recs s = true →
      ((runLoop recs l).2).isSome = true := by
  intro l
  induction l with
  | nil => intro recs s h; exact absurd h (List.not_mem_nil s)
  | cons a rest ih =>
    intro recs s hmem hr hfound
    unfold runLoop
    cases hes : execStep recs a with
    | mk recs' exc =>
      cases exc with
      | some m => rfl
      | none =>
        rcases List.mem_cons.mp hmem with rfl | hmem'
        · have := execStep_exc_some recs hr hfound
          rw [hes] at this
          exact absurd this (by simp)
        · have hfound' : foundIn recs' s = true := by
            have := foundIn_execStep recs a s
            rw [hes] at this
            exact this.trans hfound
          exact ih recs' s hmem' hr hfound'

theorem runLoop_take :
    ∀ (l : List Step) (recs : List RunStepRec) (k : Nat),
      findIdxP raisesP l = some k →
      (∀ s ∈ l, raisesP s = true → foundIn recs s = true) →
      runLoop recs l = runLoop recs (l.take (k + 1)) := by
  intro l
  induction l with
  | nil => intro recs k h; simp [findIdxP] at h
  | cons a rest ih =>
    intro recs k hk hfound
    by_cases hp : raisesP a
    · simp only [findIdxP, hp, ite_true, Option.some.injEq] at hk
      subst hk
      have hsome := execStep_exc_some recs hp
        (hfound a (List.mem_cons_self a rest) hp)
      simp only [List.take_succ_cons, List.take_zero]
      unfold runLoop
      cases hes : execStep recs a with
      | mk recs' exc =>
        cases exc with
        | some m => rfl
        | none => rw [hes] at hsome; exact absurd hsome (by simp)
    · simp only [findIdxP, hp, Bool.false_eq_true, ite_false,
        Option.map_eq_some'] at hk
      obtain ⟨k', hk', rfl⟩ := hk
      simp only [List.take_succ_cons]
      unfold runLoop
      cases hes : execStep recs a with
      | mk recs' exc =>
        cases exc with
        | some m =>
          have := execStep_exc_none recs (eq_false_of_ne_true hp)
          rw [hes] at this
        | none =>
          apply ih recs' k' hk'
          intro s hs hr
          have := foundIn_execStep recs a s
          rw [hes] at this
          exact this.trans (hfound s (List.mem_cons_of_mem _ hs) hr)

theorem initRecs_found {steps : List Step} {s : Step}
    (hs : s ∈ steps) (hid : s.id.isSome = true) :
    foundIn (initRecs steps) s = true := by
  obtain ⟨sid, hsid⟩ := Option.isSome_iff_exists.mp hid
  unfold foundIn
  rw [hsid]
  apply List.any_eq_true.mpr
  refine ⟨{ step_id := s.id.getD "", name := s.name.getD "", status := "pending" }, ?_, ?_⟩
  · exact List.mem_map_of_mem _ hs
  · simp [hsid]

theorem modify_ok_shape {st : FState} {act : String} {an pos : Option String}
    {ns : Option Step} {sid : Option String} {a : String} {st' : FState}
    (h : modify_flow_steps st act an pos ns sid a = .ok st') :
    ∃ steps', st' = update_flow st steps' none a := by
  unfold modify_flow_steps at h
  split at h
  · exact absurd h (by simp)
  · split at h
    · split at h
      · exact absurd h (by simp)
      · split at h
        · exact absurd h (by simp)
        · exact ⟨_, (by injection h with h; exact h.symm)⟩
    · split at h
      · split at h
        · exact absurd h (by simp)
        · split at h
          · exact absurd h (by simp)
          · exact ⟨_, (by injection h with h; exact h.symm)⟩
      · split at h
        · split at h
          · exact absurd h (by simp)
          · exact ⟨_, (by injection h with h; exact h.symm)⟩
        · exact absurd h (by simp)

/-! ## Claim theorems -/

/-- C1: the claim says every version-creating write is preceded by
structural validation and that an invalid step list (e.g. a duplicate
step id) makes the operation fail with a `ValidationError`, persisting
nothing.  The code contradicts this: `create_flow` never invokes
`validate_flow` (no caller does), so a step list with two steps sharing
id `s1` — which `validate_flow` itself rejects with
`Duplicate step ID: s1` — is persisted anyway: the Flow row exists with
`current_version = 1` and `FlowVersion(1)` exists carrying the duplicate
steps. -/
theorem C1_create_flow_persists_unvalidated :
    (create_flow 7 "f" "d" dupSteps "system").flow.current_version = 1 ∧
    (create_flow 7 "f" "d" dupSteps "system").versions =
      [{ version_no := 1, author := "system", content_steps := dupSteps }] ∧
    validate_flow { id := some 7, name := some "f", steps := some dupSteps } =
      (false, ["Duplicate step ID: s1"]) :=
  ⟨rfl, rfl, rfl⟩

/-- C2: whenever some step of the flow dispatches to an error-status
result under `onError = stop` (the default) — i.e. some step satisfies
`raisesP` — the run is finalized as `failed` with `finished_at` set, it
is never left `running`, and the loop aborts at the first such step: the
outcome equals that of executing only the prefix up to and including
it. -/
theorem C2_stop_policy_marks_run_failed (steps : List Step) (k : Nat)
    (hk : findIdxP raisesP steps = some k) :
    (execute_flow steps).run.status = "failed" ∧
    (execute_flow steps).run.finished = true ∧
    (execute_flow steps).run.status ≠ "running" ∧
    runLoop (initRecs steps) steps = runLoop (initRecs steps) (steps.take (k + 1)) := by
  have hfound : ∀ s ∈ steps, raisesP s = true → foundIn (initRecs steps) s = true := by
    intro s hs hr
    have hid : s.id.isSome = true := by
      unfold raisesP at hr
      simp only [Bool.and_eq_true] at hr
      exact hr.1.1
    exact initRecs_found hs hid
  obtain ⟨s, hmem, hps⟩ := findIdxP_mem hk
  have hsome : ((runLoop (initRecs steps) steps).2).isSome = true :=
    runLoop_raises steps (initRecs steps) s hmem hps (hfound s hmem hps)
  have htake := runLoop_take steps (initRecs steps) k hk hfound
  have hstat : (execute_flow steps).run.status = "failed" := by
    simp [execute_flow, hsome]
  exact ⟨hstat, rfl, by rw [hstat]; decide, htake⟩

/-- C2 witness: the two-step flow `[A, B]` where `A` succeeds and `B`
dispatches an unsupported email action under the default policy. -/
theorem C2_stop_policy_marks_run_failed_witness :
    (execute_flow [cstepA, cstepB]).run.status = "failed" ∧
    (execute_flow [cstepA, cstepB]).run.finished = true ∧
    (execute_flow [cstepA, cstepB]).run.status ≠ "running" ∧
    runLoop (initRecs [cstepA, cstepB]) [cstepA, cstepB]
      = runLoop (initRecs [cstepA, cstepB]) ([cstepA, cstepB].take (1 + 1)) :=
  C2_stop_policy_marks_run_failed [cstepA, cstepB] 1 (by decide)

/-- C5: `run_connector` returns the not-found error dict (the
`NotFoundError` surface) when the connector is unregistered, the
unsupported-action error dict carrying the `supported_actions` list (the
`UnsupportedActionError` surface) when the action is outside the
connector's capabilities, and otherwise delegates to the adapter and
returns its result unmodified. -/
theorem C5_run_connector_contract :
    (∀ (name action : String) (params : List (String × String)),
      get_connector name = none →
      run_connector name action params =
        [("status", .str "error"),
         ("message", .str ("Connector not found: " ++ name)),
         ("suggestion", .str ("Available connectors: " ++ connectorNames))]) ∧
    (∀ (name action : String) (params : List (String × String)) (c : BaseConnector),
      get_connector name = some c → action ∉ c.capabilities →
      run_connector name action params =
        [("status", .str "error"),
         ("message", .str ("Action " ++ action ++ " not supported by " ++ name)),
         ("supported_actions", .listStr c.capabilities)]) ∧
    (∀ (name action : String) (params : List (String × String)) (c : BaseConnector),
      get_connector name = some c → action ∈ c.capabilities →
      run_connector name action params = c.run action params) := by
  refine ⟨?_, ?_, ?_⟩
  · intro name action params h
    simp [run_connector, h]
  · intro name action params c h hmem
    simp [run_connector, h, hmem]
  · intro name action params c h hmem
    simp [run_connector, h, hmem]

/-- C5 witness: an unregistered connector name, an unsupported email
action, and a supported sql action. -/
theorem C5_run_connector_contract_witness :
    run_connector "ftp" "query" [] =
      [("status", .str "error"),
       ("message", .str ("Connector not found: " ++ "ftp")),
       ("suggestion", .str ("Available connectors: " ++ connectorNames))] ∧
    run_connector "email" "upload" [] =
      [("status", .str "error"),
       ("message", .str ("Action " ++ "upload" ++ " not supported by " ++ "email")),
       ("supported_actions", .listStr emailConnector.capabilities)] ∧
    run_connector "sql" "query" [("query", "select 1")] =
      sqlConnector.run "query" [("query", "select 1")] :=
  ⟨C5_run_connector_contract.1 "ftp" "query" [] rfl,
   C5_run_connector_contract.2.1 "email" "upload" [] emailConnector rfl (by decide),
   C5_run_connector_contract.2.2 "sql" "query" [("query", "select 1")] sqlConnector rfl
     (by decide)⟩

/-- C6: if no step both dispatches an error and carries the (default)
`stop` policy, the run completes; concretely, the three-step flow where
`B` fails with `onError: continue` and `C` succeeds yields Run
`completed` with RunStep statuses `completed`/`failed`/`completed`. -/
theorem C6_continue_policy :
    (∀ steps : List Step, (∀ s ∈ steps, raisesP s = false) →
      (execute_flow steps).run.status = "completed" ∧
      (execute_flow steps).run.finished = true ∧
      (execute_flow steps).exc = none) ∧
    ((execute_flow [cstepA, cstepBc, cstepC]).run.status = "completed" ∧
     (execute_flow [cstepA, cstepBc, cstepC]).recs.map (fun r => (r.step_id, r.status)) =
       [("a", "completed"), ("b", "failed"), ("c", "completed")]) := by
  constructor
  · intro steps h
    have hnone := runLoop_no_raise steps (initRecs steps) h
    exact ⟨by simp [execute_flow, hnone], rfl, by simp [execute_flow, hnone]⟩
  · exact ⟨rfl, rfl⟩

/-- C6 witness: the continue-policy flow `[A, B(continue), C]` has no
stop-policy failure, so the run completes. -/
theorem C6_continue_policy_witness :
    (execute_flow [cstepA, cstepBc, cstepC]).run.status = "completed" ∧
    (execute_flow [cstepA, cstepBc, cstepC]).run.finished = true ∧
    (execute_flow [cstepA, cstepBc, cstepC]).exc = none :=
  C6_continue_policy.1 [cstepA, cstepBc, cstepC] (by decide)

/-- C3 counterexample: the claim says the failing step's stored result
equals the connector's error payload (carrying, for an unsupported
action, the supported-action list).  On the flow `[A, B]` with `B`
dispatching an unsupported email action under the default `stop` policy,
the connector payload carries `supported_actions`, but the RunStep's
final stored result is the generic exception dict
`{'status': 'error', 'message': 'Step b failed: ...'}` written by the
step's own `except` handler — not the connector payload. -/
theorem C3_counterexample_result_overwritten :
    (execute_flow [cstepA, cstepB]).recs.map (fun r => (r.step_id, r.status)) =
      [("a", "completed"), ("b", "failed")] ∧
    dispatchResult cstepB =
      [("status", .str "error"),
       ("message", .str "Action upload not supported by email"),
       ("supported_actions", .listStr ["send", "read", "list"])] ∧
    ((execute_flow [cstepA, cstepB]).recs.map (fun r => r.result))[1]? =
      some (some (exceptionDict "Step b failed: Action upload not supported by email")) ∧
    ((execute_flow [cstepA, cstepB]).recs.map (fun r => r.result))[1]? ≠
      some (some (dispatchResult cstepB)) :=
  ⟨rfl, rfl, rfl, by decide⟩

/-- C3 amended: under `onError = stop`, when the dispatch result has
error status, the RunStep is persisted as `failed` — first with the
connector payload, which the step's own `except` handler then overwrites
with the generic dict `{'status':'error','message':'Step <id> failed:
<connector message>'}` before the exception propagates — so the final
stored result is that wrapper, not the connector payload. -/
theorem C3_amended_stop_failure_wraps_result
    (recs : List RunStepRec) (s : Step) (sid : String) (i : Nat) (r : RunStepRec)
    (h1 : s.id = some sid)
    (h2 : findIdxP (fun rr => rr.step_id == sid) recs = some i)
    (h3 : rget (dispatchResult s) "status" = some (.str "error"))
    (h4 : s.onError.getD "stop" = "stop")
    (h5 : recs[i]? = some r) :
    (execStep recs s).2 =
      some ("Step " ++ sid ++ " failed: " ++ getMessageStr (dispatchResult s)) ∧
    ((execStep recs s).1)[i]? = some
      { r with status := "failed",
               result := some (exceptionDict
                 ("Step " ++ sid ++ " failed: " ++ getMessageStr (dispatchResult s))),
               started := true, finished := true } := by
  unfold execStep
  rw [h1]
  dsimp only
  rw [h2]
  dsimp only
  rw [if_pos (by simp [h3]), if_pos (by simp [h4])]
  refine ⟨rfl, ?_⟩
  rw [modifyAt_getElem_self, modifyAt_getElem_self, modifyAt_getElem_self, h5]
  rfl

/-- C3 amended witness: step `B` alone, on its freshly created pending
RunStep row. -/
theorem C3_amended_stop_failure_wraps_result_witness :
    (execStep (initRecs [cstepB]) cstepB).2 =
      some ("Step " ++ "b" ++ " failed: " ++ getMessageStr (dispatchResult cstepB)) ∧
    ((execStep (initRecs [cstepB]) cstepB).1)[0]? = some
      { step_id := "b", name := "B", status := "failed",
        result := some (exceptionDict
          ("Step " ++ "b" ++ " failed: " ++ getMessageStr (dispatchResult cstepB))),
        started := true, finished := true } :=
  C3_amended_stop_failure_wraps_result (initRecs [cstepB]) cstepB "b" 0
    { step_id := "b", name := "B", status := "pending" } rfl rfl rfl rfl rfl

/-- Invariant preservation for C4: if a flow state's version numbers are
exactly `[1 .. current_version]`, any sequence of operations keeps them
so, advancing `current_version` by the number of successful
operations. -/
theorem applyOps_inv :
    ∀ (ops : List ModOp) (st : FState),
      st.versions.map (·.version_no) = natsUpTo st.flow.current_version →
      (applyOps st ops).1.flow.current_version
          = st.flow.current_version + (applyOps st ops).2 ∧
      (applyOps st ops).1.versions.map (·.version_no)
          = natsUpTo ((applyOps st ops).1.flow.current_version) := by
  intro ops
  induction ops with
  | nil => intro st h; exact ⟨rfl, h⟩
  | cons op ops ih =>
    intro st h
    have hupd : ∀ (steps : List Step) (d : Option String) (a : String),
        (update_flow st steps d a).versions.map (·.version_no)
          = natsUpTo (update_flow st steps d a).flow.current_version := by
      intro steps d a
      show (st.versions ++
          [({ version_no := st.flow.current_version + 1, author := a,
              content_steps := steps } : VersionRow)]).map (·.version_no)
        = natsUpTo (st.flow.current_version + 1)
      rw [List.map_append, h]
      rfl
    cases op with
    | upd steps d a =>
      have hrec := ih (update_flow st steps d a) (hupd steps d a)
      unfold applyOps applyOp
      dsimp only
      constructor
      · rw [hrec.1]
        show st.flow.current_version + 1 + _ = st.flow.current_version + (1 + _)
        omega
      · exact hrec.2
    | modSteps act an pos ns sid a =>
      unfold applyOps applyOp
      dsimp only
      cases hm : modify_flow_steps st act an pos ns sid a with
      | ok st' =>
        obtain ⟨steps', rfl⟩ := modify_ok_shape hm
        have hrec := ih (update_flow st steps' none a) (hupd steps' none a)
        dsimp only
        constructor
        · rw [hrec.1]
          show st.flow.current_version + 1 + _ = st.flow.current_version + (1 + _)
          omega
        · exact hrec.2
      | error m =>
        have hrec := ih st h
        dsimp only
        constructor
        · rw [hrec.1]
          rw [if_neg (by simp)]
          omega
        · exact hrec.2

/-- C4: starting from `create_flow` (version 1) and applying any
sequence of `update_flow` / `modify_flow_steps` operations, of which `N`
succeed, the flow's `current_version` equals `1 + N` and the FlowVersion
rows' version numbers are exactly `[1, 2, ..., current_version]` — a
gap-free sequence containing every integer in `[1, current_version]`,
each new version being `current_version + 1`. -/
theorem C4_version_contiguity (fid : Nat) (name desc author : String)
    (steps : List Step) (ops : List ModOp) :
    (applyOps (create_flow fid name desc steps author) ops).1.flow.current_version
      = 1 + (applyOps (create_flow fid name desc steps author) ops).2 ∧
    (applyOps (create_flow fid name desc steps author) ops).1.versions.map (·.version_no)
      = natsUpTo
        ((applyOps (create_flow fid name desc steps author) ops).1.flow.current_version) ∧
    (∀ m : Nat,
      m ∈ (applyOps (create_flow fid name desc steps author) ops).1.versions.map
            (·.version_no)
        ↔ 1 ≤ m ∧
          m ≤ (applyOps (create_flow fid name desc steps author) ops).1.flow.current_version) := by
  have h0 : (create_flow fid name desc steps author).versions.map (·.version_no)
      = natsUpTo (create_flow fid name desc steps author).flow.current_version := rfl
  have h := applyOps_inv ops (create_flow fid name desc steps author) h0
  refine ⟨h.1, h.2, ?_⟩
  intro m
  rw [h.2]
  exact mem_natsUpTo _ m

theorem findIdxP_lt_length {p : α → Bool} :
    ∀ {l : List α} {i : Nat}, findIdxP p l = some i → i < l.length := by
  intro l
  induction l with
  | nil => intro i h; simp [findIdxP] at h
  | cons a l ih =>
    intro i h
    by_cases hp : p a
    · simp only [findIdxP, hp, ite_true, Option.some.injEq] at h
      subst h
      simp
    · simp only [findIdxP, hp, Bool.false_eq_true, ite_false,
        Option.map_eq_some'] at h
      obtain ⟨j, hj, rfl⟩ := h
      have := ih hj
      simp only [List.length_cons]
      omega

/-- C7 counterexample: the claim quantifies over every step list
containing a step whose id equals `anchor_step_id` and promises an
insertion.  For `anchor_step_id = ""` and a step list containing a step
with id `""`, the code instead raises the missing-argument `ValueError`
(its truthiness guard `if not anchor_step_id` rejects the empty string
before the anchor search), inserting nothing. -/
theorem C7_counterexample_empty_anchor :
    currentSteps (create_flow 1 "f" "d" [stepEmptyId] "system") = some [stepEmptyId] ∧
    stepEmptyId.id = some "" ∧
    modify_flow_steps (create_flow 1 "f" "d" [stepEmptyId] "system") "insert_step"
        (some "") (some "after") (some cstepNew) none "system"
      = .error "Insert requires anchor_step_id, position, and new_step" ∧
    modifyRun (create_flow 1 "f" "d" [stepEmptyId] "system") "insert_step"
        (some "") (some "after") (some cstepNew) none "system"
      = create_flow 1 "f" "d" [stepEmptyId] "system" ∧
    modify_flow_steps (create_flow 1 "f" "d" [stepEmptyId] "system") "insert_step"
        (some "") (some "after") (some cstepNew) none "system"
      ≠ .ok (update_flow (create_flow 1 "f" "d" [stepEmptyId] "system")
          (pyInsert 1 cstepNew [stepEmptyId]) none "system") :=
  ⟨rfl, rfl, rfl, rfl, fun hc => Except.noConfusion hc⟩

/-- C7 amended: for every non-empty `anchor_step_id` and non-empty
`new_step`, `insert_step` with position `after` inserts at the first
anchor index plus one and `before` inserts at that index (the anchor
keeps its index under `after` and the new step lands immediately
after/before it); if no step has the anchor id, the call fails with the
anchor-not-found `ValueError` and the state — hence the version count —
is unchanged.  An empty anchor or empty new step is instead rejected by
the truthiness guard with a missing-argument `ValueError`. -/
theorem C7_amended_insert_positions
    (st : FState) (steps : List Step) (anchor : String) (ns : Step) (author : String)
    (hs : currentSteps st = some steps)
    (ha : anchor ≠ "")
    (hn : ns ≠ emptyStep) :
    (∀ i, findIdxP (fun s => s.id == some anchor) steps = some i →
      (modify_flow_steps st "insert_step" (some anchor) (some "after") (some ns) none author
          = .ok (update_flow st (pyInsert (i + 1) ns steps) none author) ∧
       modify_flow_steps st "insert_step" (some anchor) (some "before") (some ns) none author
          = .ok (update_flow st (pyInsert i ns steps) none author) ∧
       (pyInsert (i + 1) ns steps)[i + 1]? = some ns ∧
       (pyInsert (i + 1) ns steps)[i]? = steps[i]? ∧
       (pyInsert i ns steps)[i]? = some ns)) ∧
    (findIdxP (fun s => s.id == some anchor) steps = none →
      (modify_flow_steps st "insert_step" (some anchor) (some "after") (some ns) none author
          = .error ("Anchor step " ++ anchor ++ " not found") ∧
       modifyRun st "insert_step" (some anchor) (some "after") (some ns) none author = st)) := by
  have hg : (!truthyStr (some anchor) || !truthyStr (some "after")
      || !truthyStep (some ns)) = false := by
    simp [truthyStr, truthyStep, ha, hn]
  have hg' : (!truthyStr (some anchor) || !truthyStr (some "before")
      || !truthyStep (some ns)) = false := by
    simp [truthyStr, truthyStep, ha, hn]
  constructor
  · intro i hi
    have hlt : i < steps.length := findIdxP_lt_length hi
    refine ⟨?_, ?_, pyInsert_getElem_self (i + 1) ns steps (by omega),
      pyInsert_getElem_lt (i + 1) i ns steps (by omega) hlt,
      pyInsert_getElem_self i ns steps (by omega)⟩
    · unfold modify_flow_steps
      rw [hs]
      dsimp only
      rw [if_pos (by decide), if_neg (by rw [hg]; simp), hi]
      dsimp only
      rw [if_pos (by decide)]
      rfl
    · unfold modify_flow_steps
      rw [hs]
      dsimp only
      rw [if_pos (by decide), if_neg (by rw [hg']; simp), hi]
      dsimp only
      rw [if_neg (by decide)]
      rfl
  · intro hnone
    have herr : modify_flow_steps st "insert_step" (some anchor) (some "after")
        (some ns) none author = .error ("Anchor step " ++ anchor ++ " not found") := by
      unfold modify_flow_steps
      rw [hs]
      dsimp only
      rw [if_pos (by decide), if_neg (by rw [hg]; simp), hnone]
      rfl
    refine ⟨herr, ?_⟩
    unfold modifyRun
    rw [herr]

/-- C7 amended witness: inserting after/before the single step `a` of a
freshly created flow. -/
theorem C7_amended_insert_positions_witness :
    (modify_flow_steps (create_flow 1 "f" "d" [cstepA] "system") "insert_step"
        (some "a") (some "after") (some cstepNew) none "system"
      = .ok (update_flow (create_flow 1 "f" "d" [cstepA] "system")
          (pyInsert (0 + 1) cstepNew [cstepA]) none "system")) ∧
    (modify_flow_steps (create_flow 1 "f" "d" [cstepA] "system") "insert_step"
        (some "a") (some "before") (some cstepNew) none "system"
      = .ok (update_flow (create_flow 1 "f" "d" [cstepA] "system")
          (pyInsert 0 cstepNew [cstepA]) none "system")) ∧
    (pyInsert (0 + 1) cstepNew [cstepA])[0 + 1]? = some cstepNew ∧
    (pyInsert (0 + 1) cstepNew [cstepA])[0]? = [cstepA][0]? ∧
    (pyInsert 0 cstepNew [cstepA])[0]? = some cstepNew :=
  (C7_amended_insert_positions (create_flow 1 "f" "d" [cstepA] "system") [cstepA]
    "a" cstepNew "system" rfl (by decide) (by decide)).1 0 rfl

/-- C8 counterexample: the claim promises that `update_step(step_id, S)`
replaces the first step with matching id.  For `step_id = ""` and a step
list containing a step with id `""`, the code instead raises the
missing-argument `ValueError` (the truthiness guard `if not step_id`
fires before the search), replacing nothing. -/
theorem C8_counterexample_empty_step_id :
    currentSteps (create_flow 1 "f" "d" [stepEmptyId] "system") = some [stepEmptyId] ∧
    stepEmptyId.id = some "" ∧
    modify_flow_steps (create_flow 1 "f" "d" [stepEmptyId] "system") "update_step"
        none none (some cstepNew) (some "") "system"
      = .error "Update requires step_id and new_step" ∧
    modify_flow_steps (create_flow 1 "f" "d" [stepEmptyId] "system") "update_step"
        none none (some cstepNew) (some "") "system"
      ≠ .ok (update_flow (create_flow 1 "f" "d" [stepEmptyId] "system")
          ([stepEmptyId].set 0 cstepNew) none "system") :=
  ⟨rfl, rfl, rfl, fun hc => Except.noConfusion hc⟩

/-- C8 amended: for every non-empty `step_id` and non-empty `new_step`,
`update_step` replaces exactly the first step whose id matches, at the
same position, leaving every other step and the list length unchanged;
with no match it fails with the not-found `ValueError`, leaving the
state unchanged.  An empty `step_id` or empty `new_step` is instead
rejected by the truthiness guard with a missing-argument
`ValueError`. -/
theorem C8_amended_update_replaces_first
    (st : FState) (steps : List Step) (sid : String) (ns : Step) (author : String)
    (hs : currentSteps st = some steps)
    (h1 : sid ≠ "")
    (h2 : ns ≠ emptyStep) :
    (∀ i, findIdxP (fun s => s.id == some sid) steps = some i →
      (modify_flow_steps st "update_step" none none (some ns) (some sid) author
          = .ok (update_flow st (steps.set i ns) none author) ∧
       (steps.set i ns)[i]? = some ns ∧
       (∀ j, j ≠ i → (steps.set i ns)[j]? = steps[j]?) ∧
       (steps.set i ns).length = steps.length)) ∧
    (findIdxP (fun s => s.id == some sid) steps = none →
      (modify_flow_steps st "update_step" none none (some ns) (some sid) author
          = .error ("Step " ++ sid ++ " not found") ∧
       modifyRun st "update_step" none none (some ns) (some sid) author = st)) := by
  have hg : (!truthyStr (some sid) || !truthyStep (some ns)) = false := by
    simp [truthyStr, truthyStep, h1, h2]
  constructor
  · intro i hi
    have hlt : i < steps.length := findIdxP_lt_length hi
    refine ⟨?_, List.getElem?_set_self hlt, ?_, List.length_set steps i ns⟩
    · unfold modify_flow_steps
      rw [hs]
      dsimp only
      rw [if_neg (by decide), if_pos (by decide), if_neg (by rw [hg]; simp), hi]
      rfl
    · intro j hj
      exact List.getElem?_set_ne (fun h => hj h.symm)
  · intro hnone
    have herr : modify_flow_steps st "update_step" none none (some ns) (some sid) author
        = .error ("Step " ++ sid ++ " not found") := by
      unfold modify_flow_steps
      rw [hs]
      dsimp only
      rw [if_neg (by decide), if_pos (by decide), if_neg (by rw [hg]; simp), hnone]
      rfl
    refine ⟨herr, ?_⟩
    unfold modifyRun
    rw [herr]

/-- C8 amended witness: updating the single step `a` of a freshly
created flow. -/
theorem C8_amended_update_replaces_first_witness :
    (modify_flow_steps (create_flow 1 "f" "d" [cstepA] "system") "update_step"
        none none (some cstepNew) (some "a") "system"
      = .ok (update_flow (create_flow 1 "f" "d" [cstepA] "system")
          ([cstepA].set 0 cstepNew) none "system")) ∧
    ([cstepA].set 0 cstepNew)[0]? = some cstepNew ∧
    ([cstepA].set 0 cstepNew).length = [cstepA].length :=
  ⟨((C8_amended_update_replaces_first (create_flow 1 "f" "d" [cstepA] "system")
      [cstepA] "a" cstepNew "system" rfl (by decide) (by decide)).1 0 rfl).1,
   ((C8_amended_update_replaces_first (create_flow 1 "f" "d" [cstepA] "system")
      [cstepA] "a" cstepNew "system" rfl (by decide) (by decide)).1 0 rfl).2.1,
   ((C8_amended_update_replaces_first (create_flow 1 "f" "d" [cstepA] "system")
      [cstepA] "a" cstepNew "system" rfl (by decide) (by decide)).1 0 rfl).2.2.2⟩

/-- C9 counterexample: the claim says `delete_step` raises no error when
zero steps match.  For `step_id = ""` on an empty step list — zero
matches — the code raises the missing-argument `ValueError` (the
truthiness guard `if not step_id` fires before the filter). -/
theorem C9_counterexample_empty_delete_id :
    currentSteps (create_flow 1 "f" "d" [] "system") = some [] ∧
    modify_flow_steps (create_flow 1 "f" "d" [] "system") "delete_step"
        none none none (some "") "system"
      = .error "Delete requires step_id" ∧
    modify_flow_steps (create_flow 1 "f" "d" [] "system") "delete_step"
        none none none (some "") "system"
      ≠ .ok (update_flow (create_flow 1 "f" "d" [] "system") [] none "system") :=
  ⟨rfl, rfl, fun hc => Except.noConfusion hc⟩

/-- C9 amended: for every non-empty `step_id`, `delete_step` succeeds
(creating a new version) with the step list filtered to exclude every
step whose id equals `step_id` — all duplicates removed, relative order
of the rest preserved (the filtered list is a sublist), and no error
when zero steps match.  An empty `step_id` is instead rejected by the
truthiness guard with a missing-argument `ValueError`. -/
theorem C9_amended_delete_removes_all
    (st : FState) (steps : List Step) (sid author : String)
    (hs : currentSteps st = some steps)
    (h1 : sid ≠ "") :
    modify_flow_steps st "delete_step" none none none (some sid) author
      = .ok (update_flow st (steps.filter (fun s => !(s.id == some sid))) none author) ∧
    (steps.filter (fun s => !(s.id == some sid))).Sublist steps ∧
    (∀ s : Step,
      s ∈ steps.filter (fun s => !(s.id == some sid)) ↔ s ∈ steps ∧ s.id ≠ some sid) := by
  have hg : (!truthyStr (some sid)) = false := by
    simp [truthyStr, h1]
  refine ⟨?_, List.filter_sublist steps, ?_⟩
  · unfold modify_flow_steps
    rw [hs]
    dsimp only
    rw [if_neg (by decide), if_neg (by decide), if_pos (by decide), if_neg (by rw [hg]; simp)]
  · intro s
    rw [List.mem_filter]
    simp

/-- C9 amended witness: deleting id `s1` from a flow whose step list
contains it twice removes both occurrences. -/
theorem C9_amended_delete_removes_all_witness :
    modify_flow_steps (create_flow 1 "f" "d" dupSteps "system") "delete_step"
        none none none (some "s1") "system"
      = .ok (update_flow (create_flow 1 "f" "d" dupSteps "system")
          (dupSteps.filter (fun s => !(s.id == some "s1"))) none "system") ∧
    (dupSteps.filter (fun s => !(s.id == some "s1"))).Sublist dupSteps :=
  ⟨(C9_amended_delete_removes_all (create_flow 1 "f" "d" dupSteps "system") dupSteps
      "s1" "system" rfl (by decide)).1,
   (C9_amended_delete_removes_all (create_flow 1 "f" "d" dupSteps "system") dupSteps
      "s1" "system" rfl (by decide)).2.1⟩

/-- C10: a successful `update_flow` with `description = None`, and any
successful `modify_flow_steps` (which always passes `description =
None`), leave the Flow row's `name` and `description` unchanged; the
only Flow fields modified are `current_version` (incremented by one) and
`updated_at`, and exactly one FlowVersion row (numbered
`current_version + 1`) is appended. -/
theorem C10_frame_effect :
    (∀ (st : FState) (steps : List Step) (author : String),
      (update_flow st steps none author).flow.name = st.flow.name ∧
      (update_flow st steps none author).flow.description = st.flow.description ∧
      (update_flow st steps none author).flow.current_version
        = st.flow.current_version + 1 ∧
      (update_flow st steps none author).flow.updatedTouched = true ∧
      (update_flow st steps none author).versions = st.versions ++
        [{ version_no := st.flow.current_version + 1, author := author,
           content_steps := steps }]) ∧
    (∀ (st : FState) (action : String) (anchor pos : Option String) (ns : Option Step)
        (sid : Option String) (author : String) (st' : FState),
      modify_flow_steps st action anchor pos ns sid author = .ok st' →
      st'.flow.name = st.flow.name ∧
      st'.flow.description = st.flow.description ∧
      st'.flow.current_version = st.flow.current_version + 1 ∧
      st'.flow.updatedTouched = true ∧
      ∃ steps', st'.versions = st.versions ++
        [{ version_no := st.flow.current_version + 1, author := author,
           content_steps := steps' }]) := by
  have hbase : ∀ (st : FState) (steps : List Step) (author : String),
      (update_flow st steps none author).flow.name = st.flow.name ∧
      (update_flow st steps none author).flow.description = st.flow.description ∧
      (update_flow st steps none author).flow.current_version
        = st.flow.current_version + 1 ∧
      (update_flow st steps none author).flow.updatedTouched = true ∧
      (update_flow st steps none author).versions = st.versions ++
        [{ version_no := st.flow.current_version + 1, author := author,
           content_steps := steps }] := by
    intro st steps author
    refine ⟨rfl, ?_, rfl, rfl, rfl⟩
    show (if truthyStr none then (none : Option String).getD "" else st.flow.description)
      = st.flow.description
    rfl
  constructor
  · exact hbase
  · intro st action anchor pos ns sid author st' h
    obtain ⟨steps', rfl⟩ := modify_ok_shape h
    obtain ⟨e1, e2, e3, e4, e5⟩ := hbase st steps' author
    exact ⟨e1, e2, e3, e4, steps', e5⟩

/-- C10 witness: a successful `delete_step` modification on a fresh
flow. -/
theorem C10_frame_effect_witness :
    (update_flow (create_flow 1 "f" "d" [] "system") [] none "system").flow.name
      = (create_flow 1 "f" "d" [] "system").flow.name ∧
    (update_flow (create_flow 1 "f" "d" [] "system") [] none "system").flow.description
      = (create_flow 1 "f" "d" [] "system").flow.description ∧
    (update_flow (create_flow 1 "f" "d" [] "system") [] none "system").flow.current_version
      = (create_flow 1 "f" "d" [] "system").flow.current_version + 1 ∧
    (update_flow (create_flow 1 "f" "d" [] "system") [] none "system").flow.updatedTouched
      = true ∧
    ∃ steps',
      (update_flow (create_flow 1 "f" "d" [] "system") [] none "system").versions
        = (create_flow 1 "f" "d" [] "system").versions ++
          [{ version_no := (create_flow 1 "f" "d" [] "system").flow.current_version + 1,
             author := "system", content_steps := steps' }] :=
  C10_frame_effect.2 (create_flow 1 "f" "d" [] "system") "delete_step" none none none
    (some "z") "system" (update_flow (create_flow 1 "f" "d" [] "system") [] none "system")
    rfl

end SelfAgent
